import Mathlib

/-!
# hnygorilla: span decoration for gorilla/mux requests

A shallow embedding of `wrappers/hnygorilla/gorilla.go`:
`Middleware`, `MiddlewareWithConfig` and `decorateAndProcess`.

The span is a record holding the log of `AddField` calls (oldest first) and the
number of `Send` calls.  Go panics are modelled by an explicit `Exit` value that
every step returns together with the state reached; `defer span.Send()` is the
`Send` applied to the span after the body, whatever the body's exit was.

Collaborators that live outside the file (the trace backend, reflection on the
route's handler, the router, the wrapped handler, the request decorator) are
inputs of the model.  The wrapped handler is given by the observer state it
leaves (headers of the sink, captured status) or by its panic; the decorator by
the fields it attaches and by its exit.  The span record holds what the
middleware and the decorator do to the span.
-/

set_option autoImplicit false

namespace hnygorilla

/-! ## Data model -/

/-- Values passed to `span.AddField`: the strings and the integer status. -/
inductive FieldValue where
  | str (s : String)
  | int (n : Int)
  deriving DecidableEq, Repr

/-- How a Go function body left: by returning or by a panic that unwinds. -/
inductive Exit where
  | returned
  | panicked
  deriving DecidableEq, Repr

/-- Modelled from the spec: the span of `trace.Span` (package `trace`, not in this
file), an opaque handle exposing field attachment and a terminal send.  `fields`
is the log of `AddField` calls in call order, `sent` counts `Send` calls. -/
structure Span where
  fields : List (String × FieldValue)
  sent : Nat
  deriving DecidableEq, Repr

/-- Modelled from the spec: `span.addField(key, value)` of the trace backend; the
call is appended to the log. -/
def Span.AddField (s : Span) (key : String) (val : FieldValue) : Span :=
  { s with fields := s.fields ++ [(key, val)] }

/-- Modelled from the spec: `span.send()` of the trace backend. -/
def Span.Send (s : Span) : Span :=
  { s with sent := s.sent + 1 }

/-- The value a log of writes leaves under `key`: the later write wins. -/
def lastWrite (key : String) : List (String × FieldValue) → Option FieldValue
  | [] => none
  | (k, v) :: rest =>
    match lastWrite key rest with
    | some x => some x
    | none => if k = key then some v else none

/-- Modelled from the spec: the span's field under `key` (last write wins). -/
def Span.field (s : Span) (key : String) : Option FieldValue :=
  lastWrite key s.fields

/-- The kinds of `reflect.Kind` the code distinguishes; every kind other than
`Invalid`, `Func` and `Struct` behaves alike. -/
inductive Kind where
  | Invalid
  | Func
  | Struct
  | Ptr
  | Other
  deriving DecidableEq, Repr

/-- A non-nil `http.Handler` interface value as reflection sees it: the kind and
name of its dynamic type, and the name `runtime.FuncForPC` resolves for its code
pointer (used for kind `Func` only). -/
structure HandlerValue where
  kind : Kind
  typeName : String
  funcName : String
  deriving DecidableEq, Repr

/-- The `reflect.Type` of a value: `Kind()` and `Name()`. -/
structure RType where
  Kind : Kind
  Name : String
  deriving DecidableEq, Repr

/-- The result of `reflect.ValueOf(h).Kind()`: the zero `Value` obtained from a nil
interface has kind `Invalid`. -/
def reflect.ValueOf.Kind : Option HandlerValue → Kind
  | none => Kind.Invalid
  | some h => h.kind

/-- The result of `reflect.TypeOf(h)`: nil for a nil interface value. -/
def reflect.TypeOf : Option HandlerValue → Option RType
  | none => none
  | some h => some { Kind := h.kind, Name := h.typeName }

/-- The result of `runtime.FuncForPC(v.Pointer()).Name()` for a value of kind `Func`. -/
def runtime.FuncForPC.Name : Option HandlerValue → String
  | none => ""
  | some h => h.funcName

/-- A `mux.Route`: its handler (`none` is the nil interface), its declared name
(empty when none was declared) and the result of `GetPathTemplate`
(`Except.error` when the template cannot be resolved). -/
structure Route where
  handler : Option HandlerValue
  name : String
  pathTemplate : Except String String
  deriving Repr

instance : DecidableEq (Except String String) := fun a b =>
  match a, b with
  | Except.ok x, Except.ok y =>
    if h : x = y then isTrue (by rw [h]) else isFalse (fun e => h (Except.ok.inj e))
  | Except.error x, Except.error y =>
    if h : x = y then isTrue (by rw [h]) else isFalse (fun e => h (Except.error.inj e))
  | Except.ok _, Except.error _ => isFalse (fun e => by cases e)
  | Except.error _, Except.ok _ => isFalse (fun e => by cases e)

instance : DecidableEq Route := fun a b =>
  match a, b with
  | ⟨h1, n1, p1⟩, ⟨h2, n2, p2⟩ =>
    if h : h1 = h2 ∧ n1 = n2 ∧ p1 = p2 then
      isTrue (by obtain ⟨e1, e2, e3⟩ := h; rw [e1, e2, e3])
    else
      isFalse (fun e => h (by cases e; exact ⟨rfl, rfl, rfl⟩))

def Route.GetHandler (r : Route) : Option HandlerValue := r.handler

def Route.GetName (r : Route) : String := r.name

def Route.GetPathTemplate (r : Route) : Except String String := r.pathTemplate

/-- A request context: the router state gorilla/mux keeps in it (the path
variables in the order the `range` loop visits the map, and the matched route),
and a tag standing for everything else it carries (the trace and span). -/
structure Context where
  vars : List (String × String)
  route : Option Route
  tag : Nat
  deriving DecidableEq, Repr

/-- An incoming `*http.Request`: its URL path and its context. -/
structure Request where
  path : String
  ctx : Context
  deriving DecidableEq, Repr

/-- The request `r.WithContext(ctx)`. -/
def Request.WithContext (r : Request) (ctx : Context) : Request :=
  { r with ctx := ctx }

/-- The mapping `mux.Vars(r)`, read from the request's context. -/
def mux.Vars (r : Request) : List (String × String) := r.ctx.vars

/-- The route `mux.CurrentRoute(r)`, read from the request's context. -/
def mux.CurrentRoute (r : Request) : Option Route := r.ctx.route

/-- An `http.Header`: canonical key to list of values. -/
abbrev Header := List (String × List String)

/-- The value `h.Get(key)` for a key already in canonical form: the first value
stored under the key, the empty string when there is none. -/
def Header.Get (h : Header) (key : String) : String :=
  match h.lookup key with
  | some (v :: _) => v
  | _ => ""

/-- The response sink `http.ResponseWriter`, as far as this code reads it: its headers. -/
structure HTTPResponseWriter where
  Header : Header
  deriving DecidableEq, Repr

/-- The observer `common.ResponseWriter`: the wrapped sink and the captured status. -/
structure ResponseWriter where
  Wrapped : HTTPResponseWriter
  Status : Int
  deriving DecidableEq, Repr

/-- Modelled from the spec: `common.NewResponseWriter` (package `common`, not in this
file), `wrap(sink) -> observer`: pure construction with the captured status at its
"not yet set" default, which the code tests as zero. -/
def NewResponseWriter (w : HTTPResponseWriter) : ResponseWriter :=
  { Wrapped := w, Status := 0 }

/-- The wrapped `http.Handler`: run against the observer and the request, it leaves
the observer in a new state (headers of the sink, captured status) when `ServeHTTP`
returns, and `none` when it panics. -/
abbrev Handler := ResponseWriter → Request → Option ResponseWriter

/-- What a call of the request decorator does: the fields it attached to the span
and how it left. -/
structure Decorated where
  added : List (String × FieldValue)
  exit : Exit
  deriving DecidableEq, Repr

/-- A trace-parser hook of `config.HTTPIncomingConfig`, identified by a tag. -/
structure TraceParserHook where
  tag : Nat
  deriving DecidableEq, Repr

/-- The configuration `config.HTTPIncomingConfig`; `none` is a nil function value. -/
structure HTTPIncomingConfig where
  HTTPParserHook : Option TraceParserHook
  HTTPRequestSpanDecorator : Option (Request → Span → Decorated)

/-- The two span-start operations of package `common`, as functions of their arguments. -/
structure Backend where
  StartSpanOrTraceFromHTTP : Request → Context × Span
  StartSpanOrTraceFromHTTPWithTraceParserHook : Request → TraceParserHook → Context × Span

/-- Which span-start operation a request handler called, with its arguments. -/
inductive StartCall where
  | StartSpanOrTraceFromHTTP (r : Request)
  | StartSpanOrTraceFromHTTPWithTraceParserHook (r : Request) (hook : TraceParserHook)
  deriving DecidableEq, Repr

/-- The state `decorateAndProcess` leaves: the span, the arguments of every
`handler.ServeHTTP` call it made, and how it left. -/
structure Processed where
  span : Span
  served : List (HTTPResponseWriter × Request)
  exit : Exit
  deriving DecidableEq, Repr

/-- The observable behaviour of one request through the middleware. -/
structure Run where
  start : StartCall
  decorated : List Request
  span : Span
  served : List (HTTPResponseWriter × Request)
  exit : Exit
  deriving DecidableEq, Repr

/-! ## The code -/

/-- Lines 63-66 of `decorateAndProcess`: one `AddField` per path variable. -/
def addVars (span : Span) (vars : List (String × String)) : Span :=
  vars.foldl (fun s kv => s.AddField ("gorilla.vars." ++ kv.1) (FieldValue.str kv.2)) span

/-- Lines 67-94 of `decorateAndProcess`: the route-metadata steps.  Calling `Kind()`
on the nil `reflect.Type` of a nil handler is a nil dereference, a panic. -/
def addRoute (span : Span) : Option Route → Span × Exit
  | none => (span, Exit.returned)
  | some route =>
    let chosenHandler := route.GetHandler
    let span :=
      if reflect.ValueOf.Kind chosenHandler = Kind.Func then
        let funcName := runtime.FuncForPC.Name chosenHandler
        let span := span.AddField "handler.fnname" (FieldValue.str funcName)
        if funcName ≠ "" then span.AddField "name" (FieldValue.str funcName) else span
      else span
    match reflect.TypeOf chosenHandler with
    | none => (span, Exit.panicked)
    | some typeOfHandler =>
      let span :=
        if typeOfHandler.Kind = Kind.Struct then
          let structName := typeOfHandler.Name
          if structName ≠ "" then span.AddField "name" (FieldValue.str structName) else span
        else span
      let name := route.GetName
      let span :=
        if name ≠ "" then
          (span.AddField "handler.name" (FieldValue.str name)).AddField "name"
            (FieldValue.str name)
        else span
      let span :=
        match route.GetPathTemplate with
        | Except.ok path => span.AddField "handler.route" (FieldValue.str path)
        | Except.error _ => span
      (span, Exit.returned)

/-- Lines 97-109 of `decorateAndProcess`: the response fields, read from the
observer after the handler has returned. -/
def addResponse (span : Span) (wrappedWriter : ResponseWriter) : Span :=
  let wrappedWriter :=
    if wrappedWriter.Status = 0 then { wrappedWriter with Status := 200 } else wrappedWriter
  let cl := wrappedWriter.Wrapped.Header.Get "Content-Length"
  let span := if cl ≠ "" then span.AddField "response.content_length" (FieldValue.str cl) else span
  let ct := wrappedWriter.Wrapped.Header.Get "Content-Type"
  let span := if ct ≠ "" then span.AddField "response.content_type" (FieldValue.str ct) else span
  let ce := wrappedWriter.Wrapped.Header.Get "Content-Encoding"
  let span :=
    if ce ≠ "" then span.AddField "response.content_encoding" (FieldValue.str ce) else span
  span.AddField "response.status_code" (FieldValue.int wrappedWriter.Status)

/-- The function `decorateAndProcess`. -/
def decorateAndProcess (_ctx : Context) (span : Span) (handler : Handler)
    (w : HTTPResponseWriter) (r : Request) : Processed :=
  let wrappedWriter := NewResponseWriter w
  let vars := mux.Vars r
  let span := addVars span vars
  let route := mux.CurrentRoute r
  match addRoute span route with
  | (span, Exit.panicked) => { span := span, served := [], exit := Exit.panicked }
  | (span, Exit.returned) =>
    match handler wrappedWriter r with
    | none => { span := span, served := [(wrappedWriter.Wrapped, r)], exit := Exit.panicked }
    | some wrappedWriter' =>
      { span := addResponse span wrappedWriter',
        served := [(wrappedWriter.Wrapped, r)],
        exit := Exit.returned }

/-- The request handler returned by `Middleware handler`, run on `(w, r)`. -/
def Middleware (be : Backend) (handler : Handler) (w : HTTPResponseWriter) (r : Request) : Run :=
  let started := be.StartSpanOrTraceFromHTTP r
  let ctx := started.1
  let span := started.2
  -- defer span.Send()
  let r' := r.WithContext ctx
  let p := decorateAndProcess ctx span handler w r'
  { start := StartCall.StartSpanOrTraceFromHTTP r,
    decorated := [],
    span := p.span.Send,
    served := p.served,
    exit := p.exit }

/-- The request handler returned by `MiddlewareWithConfig cfg handler`, run on `(w, r)`. -/
def MiddlewareWithConfig (be : Backend) (cfg : HTTPIncomingConfig) (handler : Handler)
    (w : HTTPResponseWriter) (r : Request) : Run :=
  let started :=
    match cfg.HTTPParserHook with
    | none => be.StartSpanOrTraceFromHTTP r
    | some hook => be.StartSpanOrTraceFromHTTPWithTraceParserHook r hook
  let start :=
    match cfg.HTTPParserHook with
    | none => StartCall.StartSpanOrTraceFromHTTP r
    | some hook => StartCall.StartSpanOrTraceFromHTTPWithTraceParserHook r hook
  let ctx := started.1
  let span := started.2
  -- defer span.Send()
  let r' := r.WithContext ctx
  match cfg.HTTPRequestSpanDecorator with
  | none =>
    let p := decorateAndProcess ctx span handler w r'
    { start := start, decorated := [], span := p.span.Send, served := p.served, exit := p.exit }
  | some decorator =>
    let d := decorator r' span
    let span := { span with fields := span.fields ++ d.added }
    match d.exit with
    | Exit.panicked =>
      { start := start, decorated := [r'], span := span.Send, served := [],
        exit := Exit.panicked }
    | Exit.returned =>
      let p := decorateAndProcess ctx span handler w r'
      { start := start, decorated := [r'], span := p.span.Send, served := p.served,
        exit := p.exit }

/-! ## Vocabulary of the statements -/

/-- The fields appended to the log between span `before` and span `after`. -/
def written (before after : Span) : List (String × FieldValue) :=
  after.fields.drop before.fields.length

/-- Whether a field key lies in the `gorilla.vars.` namespace. -/
def isVarsKey (key : String) : Prop := "gorilla.vars.".data <+: key.data

instance (key : String) : Decidable (isVarsKey key) := by
  unfold isVarsKey; infer_instance

/-- The span field a path variable gives. -/
def varsField (kv : String × String) : String × FieldValue :=
  ("gorilla.vars." ++ kv.1, FieldValue.str kv.2)

/-- The three header-derived response fields, in the order the spec lists them. -/
def headerFields (h : Header) : List (String × FieldValue) :=
  (if h.Get "Content-Length" ≠ "" then
      [("response.content_length", FieldValue.str (h.Get "Content-Length"))] else []) ++
  (if h.Get "Content-Type" ≠ "" then
      [("response.content_type", FieldValue.str (h.Get "Content-Type"))] else []) ++
  (if h.Get "Content-Encoding" ≠ "" then
      [("response.content_encoding", FieldValue.str (h.Get "Content-Encoding"))] else [])

/-- What the response steps append for the observer state the handler left. -/
def responseFields (ww : ResponseWriter) : List (String × FieldValue) :=
  headerFields ww.Wrapped.Header ++
    [("response.status_code", FieldValue.int (if ww.Status = 0 then 200 else ww.Status))]

/-- The keys the route-metadata steps may write. -/
def routeKeys : List String := ["handler.fnname", "name", "handler.name", "handler.route"]

/-- The keys of the header-derived response fields. -/
def headerKeys : List String :=
  ["response.content_length", "response.content_type", "response.content_encoding"]

/-! ## Sample inputs -/

def emptySpan : Span := { fields := [], sent := 0 }

def sampleWriter : HTTPResponseWriter := { Header := [] }

def sampleBackend : Backend :=
  { StartSpanOrTraceFromHTTP := fun r => ({ r.ctx with tag := r.ctx.tag + 1 }, emptySpan),
    StartSpanOrTraceFromHTTPWithTraceParserHook := fun r hook =>
      ({ r.ctx with tag := r.ctx.tag + 2 + hook.tag }, emptySpan) }

/-- A handler that writes nothing and returns. -/
def silentHandler : Handler := fun ww _ => some ww

/-- A handler that sets the status to `code` and returns. -/
def statusHandler (code : Int) : Handler := fun ww _ => some { ww with Status := code }

/-- A handler that sets `Content-Type: application/json`, writes a body, sets no status. -/
def jsonHandler : Handler := fun ww _ =>
  some { ww with Wrapped := { Header := [("Content-Type", ["application/json"])] } }

/-- A handler that panics. -/
def panicHandler : Handler := fun _ _ => none

def getUserFunc : HandlerValue :=
  { kind := Kind.Func, typeName := "HandlerFunc", funcName := "main.getUser" }

/-- Scenario A: route named `getUser` with path variable `id=42`. -/
def requestA : Request :=
  { path := "/users/42",
    ctx := { vars := [("id", "42")],
             route := some { handler := some getUserFunc, name := "getUser",
                             pathTemplate := Except.ok "/users/\x7bid\x7d" },
             tag := 0 } }

/-- Scenario B: no route matched. -/
def requestB : Request :=
  { path := "/nowhere", ctx := { vars := [], route := none, tag := 0 } }

/-- A matched route named `getUser` that has no handler bound. -/
def requestNilHandler : Request :=
  { path := "/users/42",
    ctx := { vars := [("id", "42")],
             route := some { handler := none, name := "getUser",
                             pathTemplate := Except.ok "/users/\x7bid\x7d" },
             tag := 0 } }

/-- A matched, unnamed route whose function handler resolves to the empty name. -/
def requestAnonFunc : Request :=
  { path := "/x",
    ctx := { vars := [],
             route := some { handler := some { kind := Kind.Func, typeName := "HandlerFunc",
                                               funcName := "" },
                             name := "", pathTemplate := Except.error "no template" },
             tag := 0 } }

/-- A matched, unnamed route whose function handler resolves to `main.listUsers`. -/
def requestListFunc : Request :=
  { path := "/users",
    ctx := { vars := [],
             route := some { handler := some { kind := Kind.Func, typeName := "HandlerFunc",
                                               funcName := "main.listUsers" },
                             name := "", pathTemplate := Except.ok "/users" },
             tag := 0 } }

/-- A decorator that attaches one field and then panics. -/
def panicDecorator : Request → Span → Decorated :=
  fun _ _ => { added := [("custom", FieldValue.str "x")], exit := Exit.panicked }

/-! ## Lemmas on the field log -/

theorem lastWrite_append (key : String) (a b : List (String × FieldValue)) :
    lastWrite key (a ++ b) =
      match lastWrite key b with
      | some x => some x
      | none => lastWrite key a := by
  induction a with
  | nil =>
    cases h : lastWrite key b <;> simp [lastWrite, h]
  | cons f rest ih =>
    obtain ⟨k, v⟩ := f
    have hc : lastWrite key ((k, v) :: rest ++ b) =
        match lastWrite key (rest ++ b) with
        | some x => some x
        | none => if k = key then some v else none := rfl
    have hd : lastWrite key ((k, v) :: rest) =
        match lastWrite key rest with
        | some x => some x
        | none => if k = key then some v else none := rfl
    rw [hc, hd, ih]
    cases h : lastWrite key b <;> simp

theorem lastWrite_eq_none (key : String) (l : List (String × FieldValue))
    (h : ∀ f ∈ l, f.1 ≠ key) : lastWrite key l = none := by
  induction l with
  | nil => rfl
  | cons f rest ih =>
    obtain ⟨k, v⟩ := f
    have h1 : k ≠ key := h (k, v) (List.mem_cons_self _ _)
    have h2 : lastWrite key rest = none := ih (fun g hg => h g (List.mem_cons_of_mem _ hg))
    simp [lastWrite, h2, h1]

theorem lastWrite_single_of_nodup (key : String) (v : FieldValue)
    (l : List (String × FieldValue)) (hmem : (key, v) ∈ l) (hnd : (l.map Prod.fst).Nodup) :
    lastWrite key l = some v := by
  induction l with
  | nil => cases hmem
  | cons f rest ih =>
    obtain ⟨k, u⟩ := f
    simp only [List.map_cons, List.nodup_cons] at hnd
    rcases List.mem_cons.mp hmem with heq | hin
    · have hk : k = key := (Prod.mk.inj heq).1.symm
      have hu : u = v := (Prod.mk.inj heq).2.symm
      have hnone : lastWrite key rest = none := by
        apply lastWrite_eq_none
        intro g hg hgk
        apply hnd.1
        rw [hk, ← hgk]
        exact List.mem_map_of_mem Prod.fst hg
      simp [lastWrite, hnone, hk, hu]
    · simp [lastWrite, ih hin hnd.2]

theorem varsKey_isVarsKey (k : String) : isVarsKey ("gorilla.vars." ++ k) := by
  unfold isVarsKey
  rw [String.data_append]
  exact List.prefix_append _ _

theorem varsKey_injective (k k' : String) (h : "gorilla.vars." ++ k = "gorilla.vars." ++ k') :
    k = k' := by
  have h1 : ("gorilla.vars." ++ k).data = ("gorilla.vars." ++ k').data := by rw [h]
  rw [String.data_append, String.data_append] at h1
  exact String.ext (List.append_cancel_left h1)

theorem addVars_fields (span : Span) (vars : List (String × String)) :
    (addVars span vars).fields = span.fields ++ vars.map varsField := by
  induction vars generalizing span with
  | nil => simp [addVars]
  | cons kv rest ih =>
    have : addVars span (kv :: rest) =
        addVars (span.AddField ("gorilla.vars." ++ kv.1) (FieldValue.str kv.2)) rest := rfl
    rw [this, ih]
    simp [Span.AddField, varsField]

theorem addVars_sent (span : Span) (vars : List (String × String)) :
    (addVars span vars).sent = span.sent := by
  induction vars generalizing span with
  | nil => rfl
  | cons kv rest ih =>
    have : addVars span (kv :: rest) =
        addVars (span.AddField ("gorilla.vars." ++ kv.1) (FieldValue.str kv.2)) rest := rfl
    rw [this, ih]
    rfl

/-- The route-metadata steps only append to the log, and what they append and how
they leave does not depend on the span they start from. -/
theorem addRoute_fields (span : Span) (route : Option Route) :
    (addRoute span route).1.fields = span.fields ++ (addRoute emptySpan route).1.fields ∧
    (addRoute span route).1.sent = span.sent ∧
    (addRoute span route).2 = (addRoute emptySpan route).2 := by
  cases route with
  | none => simp [addRoute, emptySpan]
  | some route =>
    obtain ⟨handler, name, tmpl⟩ := route
    cases handler with
    | none => simp [addRoute, emptySpan, reflect.ValueOf.Kind, reflect.TypeOf, Route.GetHandler]
    | some h =>
      cases tmpl <;>
      simp only [addRoute, emptySpan, reflect.ValueOf.Kind, reflect.TypeOf, Route.GetHandler,
        Route.GetName, Route.GetPathTemplate, runtime.FuncForPC.Name, Span.AddField] <;>
      split_ifs <;> simp

theorem addResponse_fields (span : Span) (ww : ResponseWriter) :
    (addResponse span ww).fields =
      span.fields ++ (headerFields ww.Wrapped.Header ++
        [("response.status_code", FieldValue.int (if ww.Status = 0 then 200 else ww.Status))]) ∧
    (addResponse span ww).sent = span.sent := by
  simp only [addResponse, headerFields, Span.AddField]
  split_ifs <;> simp

theorem addRoute_keys (route : Option Route) :
    ∀ f ∈ (addRoute emptySpan route).1.fields, f.1 ∈ routeKeys := by
  cases route with
  | none => simp [addRoute, emptySpan]
  | some route =>
    obtain ⟨handler, name, tmpl⟩ := route
    cases handler with
    | none => simp [addRoute, emptySpan, reflect.ValueOf.Kind, reflect.TypeOf, Route.GetHandler]
    | some h =>
      cases tmpl <;>
      simp only [addRoute, emptySpan, reflect.ValueOf.Kind, reflect.TypeOf, Route.GetHandler,
        Route.GetName, Route.GetPathTemplate, runtime.FuncForPC.Name, Span.AddField, routeKeys] <;>
      split_ifs <;> simp

theorem headerFields_keys (h : Header) : ∀ f ∈ headerFields h, f.1 ∈ headerKeys := by
  simp only [headerFields, headerKeys]
  split_ifs <;> simp

theorem varsFields_keys (vars : List (String × String)) :
    ∀ f ∈ vars.map varsField, isVarsKey f.1 := by
  intro f hf
  obtain ⟨kv, _, rfl⟩ := List.mem_map.mp hf
  exact varsKey_isVarsKey kv.1

/-- The run of `decorateAndProcess` when the route-metadata steps panic. -/
theorem decorate_route_panics (ctx : Context) (span : Span) (handler : Handler)
    (w : HTTPResponseWriter) (r : Request)
    (h : (addRoute emptySpan (mux.CurrentRoute r)).2 = Exit.panicked) :
    (decorateAndProcess ctx span handler w r).span.fields =
      span.fields ++ ((mux.Vars r).map varsField ++
        (addRoute emptySpan (mux.CurrentRoute r)).1.fields) ∧
    (decorateAndProcess ctx span handler w r).served = [] ∧
    (decorateAndProcess ctx span handler w r).exit = Exit.panicked := by
  obtain ⟨hf, _, he⟩ := addRoute_fields (addVars span (mux.Vars r)) (mux.CurrentRoute r)
  rw [h] at he
  rw [addVars_fields] at hf
  simp only [decorateAndProcess]
  split
  · rename_i s heq
    rw [heq] at hf
    simp only at hf
    simp [hf]
  · rename_i s heq
    rw [heq] at he
    cases he

/-- The run of `decorateAndProcess` when the wrapped handler panics. -/
theorem decorate_handler_panics (ctx : Context) (span : Span) (handler : Handler)
    (w : HTTPResponseWriter) (r : Request)
    (h : (addRoute emptySpan (mux.CurrentRoute r)).2 = Exit.returned)
    (hh : handler (NewResponseWriter w) r = none) :
    (decorateAndProcess ctx span handler w r).span.fields =
      span.fields ++ ((mux.Vars r).map varsField ++
        (addRoute emptySpan (mux.CurrentRoute r)).1.fields) ∧
    (decorateAndProcess ctx span handler w r).served = [(w, r)] ∧
    (decorateAndProcess ctx span handler w r).exit = Exit.panicked := by
  obtain ⟨hf, _, he⟩ := addRoute_fields (addVars span (mux.Vars r)) (mux.CurrentRoute r)
  rw [h] at he
  rw [addVars_fields] at hf
  simp only [decorateAndProcess]
  split
  · rename_i s heq
    rw [heq] at he
    cases he
  · rename_i s heq
    rw [heq] at hf
    simp only at hf
    have hh' : handler { Wrapped := w, Status := 0 } r = none := hh
    simp [hh', hf, NewResponseWriter]

/-- The run of `decorateAndProcess` when the wrapped handler returns. -/
theorem decorate_handler_returns (ctx : Context) (span : Span) (handler : Handler)
    (w : HTTPResponseWriter) (r : Request) (ww : ResponseWriter)
    (h : (addRoute emptySpan (mux.CurrentRoute r)).2 = Exit.returned)
    (hh : handler (NewResponseWriter w) r = some ww) :
    (decorateAndProcess ctx span handler w r).span.fields =
      span.fields ++ ((mux.Vars r).map varsField ++
        ((addRoute emptySpan (mux.CurrentRoute r)).1.fields ++ responseFields ww)) ∧
    (decorateAndProcess ctx span handler w r).served = [(w, r)] ∧
    (decorateAndProcess ctx span handler w r).exit = Exit.returned := by
  obtain ⟨hf, _, he⟩ := addRoute_fields (addVars span (mux.Vars r)) (mux.CurrentRoute r)
  rw [h] at he
  rw [addVars_fields] at hf
  simp only [decorateAndProcess]
  split
  · rename_i s heq
    rw [heq] at he
    cases he
  · rename_i s heq
    rw [heq] at hf
    simp only at hf
    have hh' : handler { Wrapped := w, Status := 0 } r = some ww := hh
    simp [hh', hf, NewResponseWriter, (addResponse_fields s ww).1, responseFields]

/-- The function `decorateAndProcess` never calls `Send`. -/
theorem decorate_sent (ctx : Context) (span : Span) (handler : Handler)
    (w : HTTPResponseWriter) (r : Request) :
    (decorateAndProcess ctx span handler w r).span.sent = span.sent := by
  obtain ⟨_, hs, _⟩ := addRoute_fields (addVars span (mux.Vars r)) (mux.CurrentRoute r)
  rw [addVars_sent] at hs
  simp only [decorateAndProcess]
  split
  · rename_i s heq
    rw [heq] at hs
    exact hs
  · rename_i s heq
    rw [heq] at hs
    simp only at hs
    split
    · exact hs
    · simp [(addResponse_fields s _).2, hs]

/-- When `decorateAndProcess` returns, the route steps returned and the handler returned. -/
theorem decorate_returned (ctx : Context) (span : Span) (handler : Handler)
    (w : HTTPResponseWriter) (r : Request)
    (h : (decorateAndProcess ctx span handler w r).exit = Exit.returned) :
    (addRoute emptySpan (mux.CurrentRoute r)).2 = Exit.returned ∧
    ∃ ww, handler (NewResponseWriter w) r = some ww := by
  cases hr : (addRoute emptySpan (mux.CurrentRoute r)).2 with
  | panicked =>
    rw [(decorate_route_panics ctx span handler w r hr).2.2] at h
    cases h
  | returned =>
    refine ⟨rfl, ?_⟩
    cases hh : handler (NewResponseWriter w) r with
    | none =>
      rw [(decorate_handler_panics ctx span handler w r hr hh).2.2] at h
      cases h
    | some ww => exact ⟨ww, rfl⟩

/-- Whatever the run, the log is only extended, and by the path-variable fields first. -/
theorem decorate_fields (ctx : Context) (span : Span) (handler : Handler)
    (w : HTTPResponseWriter) (r : Request) :
    ∃ rest, (decorateAndProcess ctx span handler w r).span.fields =
        span.fields ++ ((mux.Vars r).map varsField ++ rest) ∧
      ∀ f ∈ rest, f.1 ∈ routeKeys ++ headerKeys ++ ["response.status_code"] := by
  cases hr : (addRoute emptySpan (mux.CurrentRoute r)).2 with
  | panicked =>
    refine ⟨_, (decorate_route_panics ctx span handler w r hr).1, ?_⟩
    intro f hf
    simp [addRoute_keys _ f hf]
  | returned =>
    cases hh : handler (NewResponseWriter w) r with
    | none =>
      refine ⟨_, (decorate_handler_panics ctx span handler w r hr hh).1, ?_⟩
      intro f hf
      simp [addRoute_keys _ f hf]
    | some ww =>
      refine ⟨_, (decorate_handler_returns ctx span handler w r ww hr hh).1, ?_⟩
      intro f hf
      rcases List.mem_append.mp hf with h1 | h2
      · simp [addRoute_keys _ f h1]
      · rcases List.mem_append.mp h2 with h3 | h4
        · simp [headerFields_keys _ f h3]
        · simp at h4
          simp [h4]

theorem written_of_fields (before after : Span) (ws : List (String × FieldValue))
    (h : after.fields = before.fields ++ ws) : written before after = ws := by
  simp [written, h]

theorem not_isVarsKey_of_mem_keys (key : String)
    (h : key ∈ routeKeys ++ headerKeys ++ ["response.status_code"]) : ¬ isVarsKey key := by
  simp only [routeKeys, headerKeys, List.mem_append, List.mem_cons, List.mem_singleton,
    List.mem_nil_iff, or_false] at h
  rcases h with ((h | h | h | h) | (h | h | h)) | h <;> subst h <;> decide

theorem responseFields_keys (ww : ResponseWriter) :
    ∀ f ∈ responseFields ww, f.1 ∈ headerKeys ++ ["response.status_code"] := by
  intro f hf
  rcases List.mem_append.mp hf with h | h
  · exact List.mem_append_left _ (headerFields_keys _ f h)
  · rw [List.mem_singleton.mp h]
    exact List.mem_append_right _ (List.mem_singleton.mpr rfl)

theorem routeKeys_disjoint :
    ∀ key ∈ routeKeys, key ∉ headerKeys ++ ["response.status_code"] := by
  decide

/-- The value a key of the route-metadata steps has after `decorateAndProcess`: the last
write of those steps under it, and the value the span had before when there is none. -/
theorem decorate_field_routeKey (ctx : Context) (span : Span) (handler : Handler)
    (w : HTTPResponseWriter) (r : Request) (key : String) (hkey : key ∈ routeKeys) :
    (decorateAndProcess ctx span handler w r).span.field key =
      match lastWrite key (addRoute emptySpan (mux.CurrentRoute r)).1.fields with
      | some x => some x
      | none => span.field key := by
  have hnv : ¬ isVarsKey key := not_isVarsKey_of_mem_keys key (by simp [hkey])
  have hvars : lastWrite key ((mux.Vars r).map varsField) = none := by
    apply lastWrite_eq_none
    intro f hf hfk
    exact hnv (hfk ▸ varsFields_keys _ f hf)
  have hresp : ∀ ww, lastWrite key (responseFields ww) = none := by
    intro ww
    apply lastWrite_eq_none
    intro f hf hfk
    have h1 := responseFields_keys ww f hf
    rw [hfk] at h1
    exact routeKeys_disjoint key hkey h1
  unfold Span.field
  cases hr : (addRoute emptySpan (mux.CurrentRoute r)).2 with
  | panicked =>
    rw [(decorate_route_panics ctx span handler w r hr).1, lastWrite_append, lastWrite_append,
      hvars]
    cases lastWrite key (addRoute emptySpan (mux.CurrentRoute r)).1.fields <;> rfl
  | returned =>
    cases hh : handler (NewResponseWriter w) r with
    | none =>
      rw [(decorate_handler_panics ctx span handler w r hr hh).1, lastWrite_append,
        lastWrite_append, hvars]
      cases lastWrite key (addRoute emptySpan (mux.CurrentRoute r)).1.fields <;> rfl
    | some ww =>
      rw [(decorate_handler_returns ctx span handler w r ww hr hh).1, lastWrite_append,
        lastWrite_append, lastWrite_append, hresp ww, hvars]
      cases lastWrite key (addRoute emptySpan (mux.CurrentRoute r)).1.fields <;> rfl

/-- For a route with a handler bound the route-metadata steps return. -/
theorem addRoute_returns_of_handler (span : Span) (route : Route) (h : HandlerValue)
    (hh : route.GetHandler = some h) : (addRoute span (some route)).2 = Exit.returned := by
  obtain ⟨handler, name, tmpl⟩ := route
  simp only [Route.GetHandler] at hh
  subst hh
  cases tmpl <;> simp [addRoute, reflect.TypeOf, Route.GetHandler, Route.GetPathTemplate]

/-- For a route with a handler bound and a declared name, the last `name` and
`handler.name` writes of the route-metadata steps carry the declared name. -/
theorem addRoute_named (route : Route) (h : HandlerValue)
    (hh : route.GetHandler = some h) (hn : route.GetName ≠ "") :
    lastWrite "name" (addRoute emptySpan (some route)).1.fields
      = some (FieldValue.str route.GetName) ∧
    lastWrite "handler.name" (addRoute emptySpan (some route)).1.fields
      = some (FieldValue.str route.GetName) := by
  obtain ⟨handler, name, tmpl⟩ := route
  simp only [Route.GetHandler] at hh
  simp only [Route.GetName] at hn
  subst hh
  cases tmpl <;>
  simp only [addRoute, emptySpan, reflect.ValueOf.Kind, reflect.TypeOf, Route.GetHandler,
    Route.GetName, Route.GetPathTemplate, runtime.FuncForPC.Name, Span.AddField] <;>
  split_ifs <;> simp [lastWrite]

/-- Precedence law for every route that has a handler bound: the declared name ends up
in `name` and in `handler.name`, whatever the handler's kind and whatever the span held. -/
theorem named_route_precedence (ctx : Context) (span : Span) (handler : Handler)
    (w : HTTPResponseWriter) (r : Request) (route : Route) (h : HandlerValue)
    (hr : mux.CurrentRoute r = some route) (hh : route.GetHandler = some h)
    (hn : route.GetName ≠ "") :
    (decorateAndProcess ctx span handler w r).span.field "name"
      = some (FieldValue.str route.GetName) ∧
    (decorateAndProcess ctx span handler w r).span.field "handler.name"
      = some (FieldValue.str route.GetName) := by
  obtain ⟨h1, h2⟩ := addRoute_named route h hh hn
  constructor
  · rw [decorate_field_routeKey ctx span handler w r "name" (by decide), hr, h1]
  · rw [decorate_field_routeKey ctx span handler w r "handler.name" (by decide), hr, h2]

/-- Instance of the precedence law at Scenario A. -/
theorem named_route_precedence_witness :
    (decorateAndProcess requestA.ctx emptySpan (statusHandler 404) sampleWriter requestA).span.field
        "name" = some (FieldValue.str "getUser") ∧
    (decorateAndProcess requestA.ctx emptySpan (statusHandler 404) sampleWriter requestA).span.field
        "handler.name" = some (FieldValue.str "getUser") :=
  named_route_precedence requestA.ctx emptySpan (statusHandler 404) sampleWriter requestA
    { handler := some getUserFunc, name := "getUser",
      pathTemplate := Except.ok "/users/\x7bid\x7d" } getUserFunc rfl rfl (by decide)

/-- The status field `decorateAndProcess` writes when the wrapped handler returns: the
captured status, with 200 in place of zero; it is the last field of the log, the value
the span holds, and the only value written under the key. -/
theorem decorate_status (ctx : Context) (span : Span) (handler : Handler)
    (w : HTTPResponseWriter) (r : Request) (ww : ResponseWriter)
    (hexit : (decorateAndProcess ctx span handler w r).exit = Exit.returned)
    (hret : handler (NewResponseWriter w) r = some ww) :
    (decorateAndProcess ctx span handler w r).span.fields.getLast?
      = some ("response.status_code",
          FieldValue.int (if ww.Status = 0 then 200 else ww.Status)) ∧
    (decorateAndProcess ctx span handler w r).span.field "response.status_code"
      = some (FieldValue.int (if ww.Status = 0 then 200 else ww.Status)) ∧
    ∀ v, ("response.status_code", v) ∈ written span (decorateAndProcess ctx span handler w r).span
      → v = FieldValue.int (if ww.Status = 0 then 200 else ww.Status) := by
  obtain ⟨hroute, _⟩ := decorate_returned ctx span handler w r hexit
  have hf := (decorate_handler_returns ctx span handler w r ww hroute hret).1
  refine ⟨?_, ?_, ?_⟩
  · rw [hf]
    simp [responseFields]
  · unfold Span.field
    rw [hf, responseFields]
    simp only [← List.append_assoc]
    rw [lastWrite_append]
    simp [lastWrite]
  · intro v hv
    rw [written_of_fields _ _ _ hf] at hv
    simp only [List.mem_append] at hv
    rcases hv with hv | hv | hv
    · have h1 : isVarsKey "response.status_code" := varsFields_keys _ _ hv
      exact absurd h1 (by decide)
    · have h1 : "response.status_code" ∈ routeKeys := addRoute_keys _ _ hv
      exact absurd h1 (by decide)
    · rcases List.mem_append.mp hv with hv | hv
      · have h1 : "response.status_code" ∈ headerKeys := headerFields_keys _ _ hv
        exact absurd h1 (by decide)
      · simpa using hv

/-! ## The route-metadata steps: naming -/

/-- C1, evaluated where it fails: for the matched route named `getUser` that has no
handler bound, `reflect.TypeOf` gives nil and `Kind()` on it panics before the declared
name is written; `decorateAndProcess` leaves by panic, the span has neither `name` nor
`handler.name`, and the wrapped handler is not invoked. -/
theorem C1_named_route_without_handler_panics :
    (mux.CurrentRoute requestNilHandler).map (fun route => (route.GetHandler, route.GetName))
      = some (none, "getUser") ∧
    addRoute emptySpan (mux.CurrentRoute requestNilHandler) = (emptySpan, Exit.panicked) ∧
    (decorateAndProcess requestNilHandler.ctx emptySpan silentHandler sampleWriter
        requestNilHandler).exit = Exit.panicked ∧
    (decorateAndProcess requestNilHandler.ctx emptySpan silentHandler sampleWriter
        requestNilHandler).span.field "name" = none ∧
    (decorateAndProcess requestNilHandler.ctx emptySpan silentHandler sampleWriter
        requestNilHandler).span.field "handler.name" = none := by
  decide

/-- C2 as stated fails: for the unnamed route whose function handler resolves to the
empty name, `handler.fnname` holds the empty name but `name` is not written, so it does
not hold the function name. -/
theorem C2_empty_function_name_counterexample :
    (mux.CurrentRoute requestAnonFunc).map (fun route =>
        (reflect.ValueOf.Kind route.GetHandler, route.GetName,
          runtime.FuncForPC.Name route.GetHandler)) = some (Kind.Func, "", "") ∧
    (decorateAndProcess requestAnonFunc.ctx emptySpan silentHandler sampleWriter
        requestAnonFunc).span.field "handler.fnname" = some (FieldValue.str "") ∧
    (decorateAndProcess requestAnonFunc.ctx emptySpan silentHandler sampleWriter
        requestAnonFunc).span.field "name" ≠ some (FieldValue.str "") := by
  decide

/-- C2, amended: for a matched route with no declared name whose handler is a function,
`handler.fnname` holds the resolved function name (the empty one included); when that
name is non-empty `name` holds it too, and when it is empty `decorateAndProcess` leaves
`name` as the span had it. -/
theorem C2_function_name (ctx : Context) (span : Span) (handler : Handler)
    (w : HTTPResponseWriter) (r : Request) (route : Route)
    (hr : mux.CurrentRoute r = some route)
    (hk : reflect.ValueOf.Kind route.GetHandler = Kind.Func)
    (hn : route.GetName = "") :
    (decorateAndProcess ctx span handler w r).span.field "handler.fnname"
      = some (FieldValue.str (runtime.FuncForPC.Name route.GetHandler)) ∧
    (runtime.FuncForPC.Name route.GetHandler ≠ "" →
      (decorateAndProcess ctx span handler w r).span.field "name"
        = some (FieldValue.str (runtime.FuncForPC.Name route.GetHandler))) ∧
    (runtime.FuncForPC.Name route.GetHandler = "" →
      (decorateAndProcess ctx span handler w r).span.field "name" = span.field "name") := by
  rw [decorate_field_routeKey ctx span handler w r "handler.fnname" (by decide),
    decorate_field_routeKey ctx span handler w r "name" (by decide), hr]
  obtain ⟨h, name, tmpl⟩ := route
  simp only [Route.GetName] at hn
  subst hn
  cases h with
  | none => simp [reflect.ValueOf.Kind, Route.GetHandler] at hk
  | some h =>
    simp only [reflect.ValueOf.Kind, Route.GetHandler] at hk
    cases tmpl <;>
    simp only [addRoute, emptySpan, reflect.ValueOf.Kind, reflect.TypeOf, Route.GetHandler,
      Route.GetName, Route.GetPathTemplate, runtime.FuncForPC.Name, Span.AddField, hk] <;>
    split_ifs <;> simp_all [lastWrite]

/-- Instance of C2 (amended) at the unnamed route bound to `main.listUsers`. -/
theorem C2_function_name_witness :
    (decorateAndProcess requestListFunc.ctx emptySpan silentHandler sampleWriter
        requestListFunc).span.field "handler.fnname" = some (FieldValue.str "main.listUsers") ∧
    (decorateAndProcess requestListFunc.ctx emptySpan silentHandler sampleWriter
        requestListFunc).span.field "name" = some (FieldValue.str "main.listUsers") :=
  have h := C2_function_name requestListFunc.ctx emptySpan silentHandler sampleWriter
    requestListFunc
    { handler := some { kind := Kind.Func, typeName := "HandlerFunc",
                        funcName := "main.listUsers" },
      name := "", pathTemplate := Except.ok "/users" } rfl rfl rfl
  ⟨h.1, h.2.1 (by decide)⟩

/-! ## The response steps: status -/

/-- C3: when the wrapped handler returns with the observer's captured status still at
its zero default, `decorateAndProcess` writes `response.status_code` = 200: it is the
last field written, the span holds 200 under that key, and no other value is written
under it. -/
theorem C3_default_status (ctx : Context) (span : Span) (handler : Handler)
    (w : HTTPResponseWriter) (r : Request) (ww : ResponseWriter)
    (hexit : (decorateAndProcess ctx span handler w r).exit = Exit.returned)
    (hret : handler (NewResponseWriter w) r = some ww)
    (hzero : ww.Status = 0) :
    (decorateAndProcess ctx span handler w r).span.fields.getLast?
      = some ("response.status_code", FieldValue.int 200) ∧
    (decorateAndProcess ctx span handler w r).span.field "response.status_code"
      = some (FieldValue.int 200) ∧
    ∀ v, ("response.status_code", v) ∈ written span (decorateAndProcess ctx span handler w r).span
      → v = FieldValue.int 200 := by
  have hst := decorate_status ctx span handler w r ww hexit hret
  simp only [hzero, if_true] at hst
  exact hst

/-- Instance of C3 at Scenario B: no route, a handler that sets no status. -/
theorem C3_default_status_witness :
    (decorateAndProcess requestB.ctx emptySpan silentHandler sampleWriter requestB).exit
      = Exit.returned ∧
    (decorateAndProcess requestB.ctx emptySpan silentHandler sampleWriter requestB).span.field
      "response.status_code" = some (FieldValue.int 200) :=
  ⟨by decide,
   (C3_default_status requestB.ctx emptySpan silentHandler sampleWriter requestB
      (NewResponseWriter sampleWriter) (by decide) rfl rfl).2.1⟩

/-- C4 as stated fails at the status value 0: a handler that returns with captured
status 0 gets `response.status_code` = 200, not 0. -/
theorem C4_zero_status_counterexample :
    statusHandler 0 (NewResponseWriter sampleWriter) requestB
      = some { Wrapped := sampleWriter, Status := 0 } ∧
    (decorateAndProcess requestB.ctx emptySpan (statusHandler 0) sampleWriter requestB).exit
      = Exit.returned ∧
    (decorateAndProcess requestB.ctx emptySpan (statusHandler 0) sampleWriter requestB).span.field
      "response.status_code" = some (FieldValue.int 200) ∧
    (decorateAndProcess requestB.ctx emptySpan (statusHandler 0) sampleWriter requestB).span.field
      "response.status_code" ≠ some (FieldValue.int 0) := by
  decide

/-- C4, amended: for every non-zero status S, when the wrapped handler returns with the
observer's captured status equal to S, `decorateAndProcess` writes
`response.status_code` = S: it is the last field written, the span holds S under that
key, and no other value is written under it. -/
theorem C4_captured_status (ctx : Context) (span : Span) (handler : Handler)
    (w : HTTPResponseWriter) (r : Request) (ww : ResponseWriter) (S : Int)
    (hexit : (decorateAndProcess ctx span handler w r).exit = Exit.returned)
    (hret : handler (NewResponseWriter w) r = some ww)
    (hS : ww.Status = S) (hnz : S ≠ 0) :
    (decorateAndProcess ctx span handler w r).span.fields.getLast?
      = some ("response.status_code", FieldValue.int S) ∧
    (decorateAndProcess ctx span handler w r).span.field "response.status_code"
      = some (FieldValue.int S) ∧
    ∀ v, ("response.status_code", v) ∈ written span (decorateAndProcess ctx span handler w r).span
      → v = FieldValue.int S := by
  have hst := decorate_status ctx span handler w r ww hexit hret
  simp only [hS, hnz, if_false] at hst
  exact hst

/-- Instance of C4 (amended) at Scenario A: the handler sets status 404. -/
theorem C4_captured_status_witness :
    (decorateAndProcess requestA.ctx emptySpan (statusHandler 404) sampleWriter requestA).exit
      = Exit.returned ∧
    (decorateAndProcess requestA.ctx emptySpan (statusHandler 404) sampleWriter requestA).span.field
      "response.status_code" = some (FieldValue.int 404) :=
  ⟨by decide,
   (C4_captured_status requestA.ctx emptySpan (statusHandler 404) sampleWriter requestA
      { Wrapped := sampleWriter, Status := 404 } 404 (by decide) rfl rfl (by decide)).2.1⟩

/-! ## Path variables -/

/-- C5: whatever the route, the handler and the exit, the fields `decorateAndProcess`
writes under a `gorilla.vars.` key are exactly one field `gorilla.vars.<k>` = `vars[k]`
per entry of the path-variable mapping; distinct variables give distinct keys; after the
call the span holds `vars[k]` under `gorilla.vars.<k>` for every entry; and every other
key of the `gorilla.vars.` namespace is left as the span had it. -/
theorem C5_path_variable_fields (ctx : Context) (span : Span) (handler : Handler)
    (w : HTTPResponseWriter) (r : Request)
    (hmap : ((mux.Vars r).map Prod.fst).Nodup) :
    (written span (decorateAndProcess ctx span handler w r).span).filter
        (fun f => decide (isVarsKey f.1)) = (mux.Vars r).map varsField ∧
    (∀ k k', "gorilla.vars." ++ k = "gorilla.vars." ++ k' → k = k') ∧
    (∀ k v, (k, v) ∈ mux.Vars r →
      (decorateAndProcess ctx span handler w r).span.field ("gorilla.vars." ++ k)
        = some (FieldValue.str v)) ∧
    (∀ key, isVarsKey key → (∀ kv ∈ mux.Vars r, key ≠ "gorilla.vars." ++ kv.1) →
      (decorateAndProcess ctx span handler w r).span.field key = span.field key) := by
  obtain ⟨rest, hf, hrest⟩ := decorate_fields ctx span handler w r
  have hrestNone : ∀ key, isVarsKey key → lastWrite key rest = none := by
    intro key hkey
    apply lastWrite_eq_none
    intro f hfm hfk
    exact not_isVarsKey_of_mem_keys key (hfk ▸ hrest f hfm) hkey
  refine ⟨?_, varsKey_injective, ?_, ?_⟩
  · rw [written_of_fields _ _ _ hf, List.filter_append]
    have h1 : (List.map varsField (mux.Vars r)).filter (fun f => decide (isVarsKey f.1))
        = List.map varsField (mux.Vars r) := by
      apply List.filter_eq_self.mpr
      intro f hfm
      simpa using varsFields_keys _ f hfm
    have h2 : rest.filter (fun f => decide (isVarsKey f.1)) = [] := by
      apply List.filter_eq_nil_iff.mpr
      intro f hfm
      simpa using not_isVarsKey_of_mem_keys f.1 (hrest f hfm)
    rw [h1, h2, List.append_nil]
  · intro k v hkv
    unfold Span.field
    rw [hf, lastWrite_append, lastWrite_append, hrestNone _ (varsKey_isVarsKey k)]
    have hnd : ((List.map varsField (mux.Vars r)).map Prod.fst).Nodup := by
      have : (List.map varsField (mux.Vars r)).map Prod.fst
          = ((mux.Vars r).map Prod.fst).map (fun k => "gorilla.vars." ++ k) := by
        simp [List.map_map, Function.comp_def, varsField]
      rw [this]
      exact List.Nodup.map (fun a b hab => varsKey_injective a b hab) hmap
    have hmem : ("gorilla.vars." ++ k, FieldValue.str v) ∈ List.map varsField (mux.Vars r) :=
      List.mem_map.mpr ⟨(k, v), hkv, rfl⟩
    rw [lastWrite_single_of_nodup _ _ _ hmem hnd]
  · intro key hkey hother
    unfold Span.field
    rw [hf, lastWrite_append, lastWrite_append, hrestNone _ hkey]
    have hv : lastWrite key (List.map varsField (mux.Vars r)) = none := by
      apply lastWrite_eq_none
      intro f hfm hfk
      obtain ⟨kv, hkv, rfl⟩ := List.mem_map.mp hfm
      exact hother kv hkv hfk.symm
    rw [hv]

/-- Instance of C5 at Scenario A: the single path variable `id=42`. -/
theorem C5_path_variable_fields_witness :
    ((mux.Vars requestA).map Prod.fst).Nodup ∧
    (written emptySpan (decorateAndProcess requestA.ctx emptySpan (statusHandler 404)
        sampleWriter requestA).span).filter (fun f => decide (isVarsKey f.1))
      = [("gorilla.vars.id", FieldValue.str "42")] :=
  ⟨by decide,
   (C5_path_variable_fields requestA.ctx emptySpan (statusHandler 404) sampleWriter requestA
      (by decide)).1⟩

/-! ## Span lifecycle -/

/-- C6: the handlers returned by `Middleware` and by `MiddlewareWithConfig` (any config)
invoke `Send` exactly once on the span the start operation returned, for every wrapped
handler, decorator and request, hence on every exit path: the wrapped handler returning,
the wrapped handler panicking, the decorator panicking, the route steps panicking. -/
theorem C6_send_exactly_once (be : Backend) (cfg : HTTPIncomingConfig) (handler : Handler)
    (w : HTTPResponseWriter) (r : Request) :
    (Middleware be handler w r).span.sent = (be.StartSpanOrTraceFromHTTP r).2.sent + 1 ∧
    (MiddlewareWithConfig be cfg handler w r).span.sent =
      (match cfg.HTTPParserHook with
        | none => be.StartSpanOrTraceFromHTTP r
        | some hook => be.StartSpanOrTraceFromHTTPWithTraceParserHook r hook).2.sent + 1 := by
  constructor
  · simp [Middleware, Span.Send, decorate_sent]
  · simp only [MiddlewareWithConfig]
    cases cfg.HTTPRequestSpanDecorator with
    | none => simp [Span.Send, decorate_sent]
    | some decorator =>
      simp only
      split <;> simp [Span.Send, decorate_sent]

/-- C7, evaluated where it fails: for a matched route with no handler bound the
route-metadata steps panic (`Kind()` on the nil `reflect.Type`), `decorateAndProcess`
leaves by panic without invoking the wrapped handler, and the panic leaves the
middleware's request handler too. -/
theorem C7_route_without_handler_aborts :
    (mux.CurrentRoute requestNilHandler).map Route.GetHandler = some none ∧
    (addRoute (addVars emptySpan (mux.Vars requestNilHandler))
        (mux.CurrentRoute requestNilHandler)).2 = Exit.panicked ∧
    (decorateAndProcess requestNilHandler.ctx emptySpan silentHandler sampleWriter
        requestNilHandler).served = [] ∧
    (Middleware sampleBackend silentHandler sampleWriter requestNilHandler).exit
      = Exit.panicked ∧
    (Middleware sampleBackend silentHandler sampleWriter requestNilHandler).served = [] := by
  decide

/-- For every matched route that has a handler bound, of whatever kind and whether or not
the path template resolves, the route-metadata steps return and the wrapped handler is
invoked once, with the observer's sink and the request. -/
theorem route_with_handler_completes (ctx : Context) (span : Span) (handler : Handler)
    (w : HTTPResponseWriter) (r : Request) (route : Route) (h : HandlerValue)
    (hr : mux.CurrentRoute r = some route) (hh : route.GetHandler = some h) :
    (addRoute (addVars span (mux.Vars r)) (mux.CurrentRoute r)).2 = Exit.returned ∧
    (decorateAndProcess ctx span handler w r).served = [(w, r)] := by
  have h1 : (addRoute emptySpan (mux.CurrentRoute r)).2 = Exit.returned := by
    rw [hr]
    exact addRoute_returns_of_handler _ route h hh
  refine ⟨by rw [hr]; exact addRoute_returns_of_handler _ route h hh, ?_⟩
  cases hs : handler (NewResponseWriter w) r with
  | none => exact (decorate_handler_panics ctx span handler w r h1 hs).2.1
  | some ww => exact (decorate_handler_returns ctx span handler w r ww h1 hs).2.1

/-- Instance at Scenario A with a panicking wrapped handler. -/
theorem route_with_handler_completes_witness :
    (decorateAndProcess requestA.ctx emptySpan panicHandler sampleWriter requestA).served
      = [(sampleWriter, requestA)] :=
  (route_with_handler_completes requestA.ctx emptySpan panicHandler sampleWriter requestA
    { handler := some getUserFunc, name := "getUser",
      pathTemplate := Except.ok "/users/\x7bid\x7d" } getUserFunc rfl rfl).2

/-- The panicking exit paths, evaluated: the wrapped handler panics under `Middleware`,
the decorator panics under `MiddlewareWithConfig`; each leaves by panic with the span
sent once. -/
theorem send_once_on_panic_paths :
    (Middleware sampleBackend panicHandler sampleWriter requestA).exit = Exit.panicked ∧
    (Middleware sampleBackend panicHandler sampleWriter requestA).span.sent = 1 ∧
    (MiddlewareWithConfig sampleBackend
        { HTTPParserHook := some { tag := 7 }, HTTPRequestSpanDecorator := some panicDecorator }
        silentHandler sampleWriter requestA).exit = Exit.panicked ∧
    (MiddlewareWithConfig sampleBackend
        { HTTPParserHook := some { tag := 7 }, HTTPRequestSpanDecorator := some panicDecorator }
        silentHandler sampleWriter requestA).served = [] ∧
    (MiddlewareWithConfig sampleBackend
        { HTTPParserHook := some { tag := 7 }, HTTPRequestSpanDecorator := some panicDecorator }
        silentHandler sampleWriter requestA).span.sent = 1 := by
  decide

/-! ## No matched route -/

/-- C8 as stated fails when the wrapped handler panics: for the request with no matched
route, the handler is invoked, its panic leaves `decorateAndProcess` before the response
steps, and neither `response.status_code` nor any other field is written. -/
theorem C8_panicking_handler_counterexample :
    mux.CurrentRoute requestB = none ∧
    (decorateAndProcess requestB.ctx emptySpan panicHandler sampleWriter requestB).served
      = [(sampleWriter, requestB)] ∧
    (decorateAndProcess requestB.ctx emptySpan panicHandler sampleWriter requestB).exit
      = Exit.panicked ∧
    written emptySpan
      (decorateAndProcess requestB.ctx emptySpan panicHandler sampleWriter requestB).span = [] ∧
    (decorateAndProcess requestB.ctx emptySpan panicHandler sampleWriter requestB).span.field
      "response.status_code" = none ∧
    (Middleware sampleBackend panicHandler sampleWriter requestB).span.field
      "response.status_code" ≠ some (FieldValue.int 200) := by
  decide

/-- C8, amended: when the router reports no matched route, `decorateAndProcess` invokes the wrapped
handler once (with the observer's sink and the request) and writes none of
`handler.fnname`, `handler.name`, `handler.route`, `name`; when the handler returns, the
fields written are exactly the `gorilla.vars.<k>` fields followed by the response fields,
ending with `response.status_code`, which is 200 when no status was captured; when the
handler panics, only the `gorilla.vars.<k>` fields are written. -/
theorem C8_no_matched_route (ctx : Context) (span : Span) (handler : Handler)
    (w : HTTPResponseWriter) (r : Request)
    (hroute : mux.CurrentRoute r = none) :
    (decorateAndProcess ctx span handler w r).served = [(w, r)] ∧
    (∀ f ∈ written span (decorateAndProcess ctx span handler w r).span,
      f.1 ≠ "handler.fnname" ∧ f.1 ≠ "handler.name" ∧ f.1 ≠ "handler.route" ∧ f.1 ≠ "name") ∧
    (∀ ww, handler (NewResponseWriter w) r = some ww →
      (decorateAndProcess ctx span handler w r).exit = Exit.returned ∧
      written span (decorateAndProcess ctx span handler w r).span =
        (mux.Vars r).map varsField ++ (headerFields ww.Wrapped.Header ++
          [("response.status_code",
            FieldValue.int (if ww.Status = 0 then 200 else ww.Status))]) ∧
      (decorateAndProcess ctx span handler w r).span.field "response.status_code" =
        some (FieldValue.int (if ww.Status = 0 then 200 else ww.Status))) ∧
    (handler (NewResponseWriter w) r = none →
      (decorateAndProcess ctx span handler w r).exit = Exit.panicked ∧
      written span (decorateAndProcess ctx span handler w r).span
        = (mux.Vars r).map varsField) := by
  have hr : (addRoute emptySpan (mux.CurrentRoute r)).2 = Exit.returned := by
    rw [hroute]; rfl
  have hempty : (addRoute emptySpan (mux.CurrentRoute r)).1.fields = [] := by
    rw [hroute]; rfl
  have hkeys : ∀ (ws : List (String × FieldValue)),
      (∀ f ∈ ws, isVarsKey f.1 ∨ f.1 ∈ headerKeys ++ ["response.status_code"]) →
      ∀ f ∈ ws, f.1 ≠ "handler.fnname" ∧ f.1 ≠ "handler.name" ∧ f.1 ≠ "handler.route" ∧
        f.1 ≠ "name" := by
    intro ws hws f hf
    have hno : ∀ key ∈ routeKeys, f.1 ≠ key := by
      intro key hkey heq
      rcases hws f hf with h | h
      · exact not_isVarsKey_of_mem_keys key (by simp [hkey]) (heq ▸ h)
      · exact routeKeys_disjoint key hkey (heq ▸ h)
    exact ⟨hno _ (by decide), hno _ (by decide), hno _ (by decide), hno _ (by decide)⟩
  cases hh : handler (NewResponseWriter w) r with
  | none =>
    obtain ⟨hf, hs, he⟩ := decorate_handler_panics ctx span handler w r hr hh
    rw [hempty, List.append_nil] at hf
    have hw := written_of_fields _ _ _ hf
    refine ⟨hs, ?_, ?_, ?_⟩
    · rw [hw]
      exact hkeys _ (fun f hf => Or.inl (varsFields_keys _ f hf))
    · intro ww hww
      cases hww
    · intro _
      exact ⟨he, hw⟩
  | some ww =>
    obtain ⟨hf, hs, he⟩ := decorate_handler_returns ctx span handler w r ww hr hh
    rw [hempty, List.nil_append] at hf
    have hw := written_of_fields _ _ _ hf
    refine ⟨hs, ?_, ?_, ?_⟩
    · rw [hw]
      apply hkeys
      intro f hf
      rcases List.mem_append.mp hf with h | h
      · exact Or.inl (varsFields_keys _ f h)
      · exact Or.inr (responseFields_keys ww f h)
    · intro ww' hww
      cases hww
      exact ⟨he, hw, (decorate_status ctx span handler w r ww he hh).2.1⟩
    · intro hnone
      cases hnone

/-- Instance of C8 at Scenario B: the only field written is the status 200. -/
theorem C8_no_matched_route_witness :
    mux.CurrentRoute requestB = none ∧
    written emptySpan (decorateAndProcess requestB.ctx emptySpan silentHandler sampleWriter
        requestB).span = [("response.status_code", FieldValue.int 200)] :=
  ⟨rfl,
   ((C8_no_matched_route requestB.ctx emptySpan silentHandler sampleWriter requestB rfl).2.2.1
      (NewResponseWriter sampleWriter) rfl).2.1⟩

/-! ## The response steps: headers -/

/-- C9: when the wrapped handler returns, for each of Content-Length, Content-Type and
Content-Encoding, `decorateAndProcess` writes the field `response.content_length`,
`response.content_type`, `response.content_encoding` exactly when `Header().Get` of that
header is non-empty in the headers the handler left, and the value written is that
header value. -/
theorem C9_response_header_fields (ctx : Context) (span : Span) (handler : Handler)
    (w : HTTPResponseWriter) (r : Request) (ww : ResponseWriter)
    (hexit : (decorateAndProcess ctx span handler w r).exit = Exit.returned)
    (hret : handler (NewResponseWriter w) r = some ww) :
    (∀ v, ("response.content_length", v) ∈
        written span (decorateAndProcess ctx span handler w r).span ↔
      (ww.Wrapped.Header.Get "Content-Length" ≠ "" ∧
        v = FieldValue.str (ww.Wrapped.Header.Get "Content-Length"))) ∧
    (∀ v, ("response.content_type", v) ∈
        written span (decorateAndProcess ctx span handler w r).span ↔
      (ww.Wrapped.Header.Get "Content-Type" ≠ "" ∧
        v = FieldValue.str (ww.Wrapped.Header.Get "Content-Type"))) ∧
    (∀ v, ("response.content_encoding", v) ∈
        written span (decorateAndProcess ctx span handler w r).span ↔
      (ww.Wrapped.Header.Get "Content-Encoding" ≠ "" ∧
        v = FieldValue.str (ww.Wrapped.Header.Get "Content-Encoding"))) := by
  obtain ⟨hroute, _⟩ := decorate_returned ctx span handler w r hexit
  have hf := (decorate_handler_returns ctx span handler w r ww hroute hret).1
  rw [written_of_fields _ _ _ hf]
  have hsplit : ∀ (key : String) (v : FieldValue), key ∈ headerKeys →
      ((key, v) ∈ List.map varsField (mux.Vars r) ++
          ((addRoute emptySpan (mux.CurrentRoute r)).1.fields ++ responseFields ww) ↔
        (key, v) ∈ headerFields ww.Wrapped.Header) := by
    intro key v hkey
    constructor
    · intro hm
      rcases List.mem_append.mp hm with h | h
      · exact absurd (varsFields_keys _ _ h)
          (not_isVarsKey_of_mem_keys key (by simp [hkey]))
      · rcases List.mem_append.mp h with h | h
        · have h1 : key ∈ routeKeys := addRoute_keys _ _ h
          exact absurd (List.mem_append_left _ hkey) (routeKeys_disjoint key h1)
        · rcases List.mem_append.mp h with h | h
          · exact h
          · have h2 : key = "response.status_code" := by
              have := List.mem_singleton.mp h
              exact (Prod.mk.inj this).1
            rw [h2] at hkey
            exact absurd hkey (by decide)
    · intro hm
      exact List.mem_append_right _ (List.mem_append_right _ (List.mem_append_left _ hm))
  refine ⟨?_, ?_, ?_⟩
  · intro v
    rw [hsplit _ v (by decide)]
    simp only [headerFields]
    split_ifs <;> simp_all
  · intro v
    rw [hsplit _ v (by decide)]
    simp only [headerFields]
    split_ifs <;> simp_all
  · intro v
    rw [hsplit _ v (by decide)]
    simp only [headerFields]
    split_ifs <;> simp_all

/-- Instance of C9 at Scenario D: `Content-Type: application/json`, no status. -/
theorem C9_response_header_fields_witness :
    (decorateAndProcess requestB.ctx emptySpan jsonHandler sampleWriter requestB).exit
      = Exit.returned ∧
    ("response.content_type", FieldValue.str "application/json") ∈
      written emptySpan
        (decorateAndProcess requestB.ctx emptySpan jsonHandler sampleWriter requestB).span ∧
    (decorateAndProcess requestB.ctx emptySpan jsonHandler sampleWriter requestB).span.field
      "response.status_code" = some (FieldValue.int 200) :=
  ⟨by decide,
   ((C9_response_header_fields requestB.ctx emptySpan jsonHandler sampleWriter requestB
      { Wrapped := { Header := [("Content-Type", ["application/json"])] }, Status := 0 }
      (by decide) rfl).2.1 (FieldValue.str "application/json")).mpr ⟨by decide, rfl⟩,
   by decide⟩

/-! ## The two constructors -/

/-- C10: with the empty configuration (no parser hook, no request decorator) the handler
returned by `MiddlewareWithConfig` runs exactly as the one returned by `Middleware`: the
same start operation with the same argument, no decorator call, the same span log and
send count, the same handler invocation and the same exit. -/
theorem C10_empty_config_is_Middleware (be : Backend) (handler : Handler)
    (w : HTTPResponseWriter) (r : Request) :
    MiddlewareWithConfig be { HTTPParserHook := none, HTTPRequestSpanDecorator := none }
        handler w r = Middleware be handler w r := by
  rfl

end hnygorilla
